import Mathlib

/-!
Verification development for the `@killiandvcz/rest` routing/middleware
framework.  The JavaScript source (Rest, Route, Middleware, Context, Request)
is shallowly embedded below: pure data is translated to Lean structures,
stateful handler execution to explicit state passing over a `Ctx` value, and
code that can throw to `Except`/`Option` results.
-/

namespace RestSpec

/-- JSON-like values, used to model JSON response bodies and parsed request
bodies.  Objects are association lists in insertion order. -/
inductive JsonVal where
  | str (s : String)
  | num (n : Nat)
  | obj (fields : List (String × JsonVal))

/-- A response body: JSON (from `Response.json`) or plain text. -/
inductive RespBody where
  | jsonB (v : JsonVal)
  | textB (s : String)

/-- An HTTP response as produced by the framework: status, headers (only the
ones the source sets explicitly), and body. -/
structure Resp where
  status : Nat
  headers : List (String × String)
  body : RespBody

/-- Values stored in the per-request `Context` state `Map`.  The JS store holds
arbitrary values; the claims only need strings and lists of strings. -/
inductive StateVal where
  | str (s : String)
  | strList (l : List String)

/-- Per-request `Context` (src `context.js`): the key/value store (a JS `Map`,
modelled as an association list that keeps first-insertion positions) and the
optional recorded response (`#response`).  The `#request`/`#rest` references
are not needed by the handlers appearing in the claims; the `#rest` reference
is modelled separately where the `service` accessor is concerned. -/
structure Ctx where
  state : List (String × StateVal)
  response : Option Resp

/-- `Map.set` semantics: overwrite in place if the key exists, else append. -/
def setState : List (String × StateVal) → String → StateVal → List (String × StateVal)
  | [], k, v => [(k, v)]
  | (k', v') :: rest, k, v =>
    if k' == k then (k, v) :: rest else (k', v') :: setState rest k v

/-- `Map.get`-style lookup. -/
def getState : List (String × StateVal) → String → Option StateVal
  | [], _ => none
  | (k', v') :: rest, k => if k' == k then some v' else getState rest k

/-- `Context.set` (context.js): last-write-wins store update. -/
def Ctx.setV (c : Ctx) (k : String) (v : StateVal) : Ctx :=
  { c with state := setState c.state k v }

/-- `Context.get` (context.js) with default `null` modelled as `none`. -/
def Ctx.getV (c : Ctx) (k : String) : Option StateVal :=
  getState c.state k

/-- `Context.json(data)` (context.js): records a 200 JSON response with the
`Content-Type: application/json` header into `#response` (options argument
left at its default). -/
def Ctx.jsonR (c : Ctx) (data : JsonVal) : Ctx :=
  { c with response := some ⟨200, [("Content-Type", "application/json")], .jsonB data⟩ }

/-- `Context.text(text)` (context.js): records a 200 plain-text response. -/
def Ctx.textR (c : Ctx) (t : String) : Ctx :=
  { c with response := some ⟨200, [("Content-Type", "text/plain")], .textB t⟩ }

/-- Body of the `Context.error(message, status, details)` builder
(context.js): `Response.json({error: {message, status, ...details}})`. -/
def errBody (message : String) (status : Nat) (details : List (String × JsonVal)) : JsonVal :=
  .obj [("error", .obj (("message", .str message) :: ("status", .num status) :: details))]

/-- `Context.error(message, status, details)` (context.js): records a JSON
error response of the `{error: {message, status, ...details}}` shape. -/
def Ctx.errorR (c : Ctx) (message : String) (status : Nat)
    (details : List (String × JsonVal)) : Ctx :=
  { c with response := some ⟨status, [("Content-Type", "application/json")],
      .jsonB (errBody message status details)⟩ }

/-- `Context.notFound()` (context.js): returns a plain 404 response *without*
recording it into `#response`. -/
def notFoundResp : Resp := ⟨404, [], .textB "Not Found"⟩

/-- A route handler, as consumed by the dispatch code (rest.js): it may update
the context (recording a response through the builders) and may throw; the
value it returns is ignored by the dispatcher, which only reads
`context.response`.  `some e` in the second component models a thrown error
with message `e`. -/
def Handler := Ctx → Ctx × Option String

/-- A middleware handler: receives the context and the `next` continuation. -/
def MwHandler := Ctx → Handler → Ctx × Option String

/-! ## Path normalization

The source normalizes paths with `path.replace(/\/\//g, "/").replace(/\/$/, "")`,
in `getRoutes` (rest.js) without a fallback and in the `middlewares` getter
(rest.js, `normalizePath`) with an `|| "/"` fallback.  A JS global regex
replace of `//` scans left to right over non-overlapping occurrences, so a run
of four slashes becomes two; `replace(/\/$/, "")` removes at most one trailing
slash. -/

/-- `replace(/\/\//g, "/")`: left-to-right non-overlapping replacement of each
slash pair by a single slash. -/
def collapseSl : List Char → List Char
  | [] => []
  | [c] => [c]
  | a :: b :: cs =>
    if a == '/' && b == '/' then '/' :: collapseSl cs
    else a :: collapseSl (b :: cs)

/-- `replace(/\/$/, "")`: drop one trailing slash if present. -/
def stripTr : List Char → List Char
  | [] => []
  | [c] => if c == '/' then [] else [c]
  | c :: cs => c :: stripTr cs

/-- The char-level composition used by both normalizers. -/
def normChars (s : List Char) : List Char := stripTr (collapseSl s)

/-- `normalizePath` from the `middlewares` getter (rest.js): collapse, strip,
and fall back to `"/"` when the result is the empty string (the `|| "/"` on
the falsy empty string). -/
def normalizePath (s : String) : String :=
  match normChars s.data with
  | [] => "/"
  | l => String.mk l

/-- The route-path normalization inside `getRoutes` (rest.js): same replaces
but *no* `|| "/"` fallback, so the root path collapses to the empty string. -/
def routeNorm (s : String) : String := String.mk (normChars s.data)

/-- Helper predicate (not from the source): does the string contain two
consecutive slashes? -/
def hasDouble : List Char → Bool
  | [] => false
  | [_] => false
  | a :: b :: cs => (a == '/' && b == '/') || hasDouble (b :: cs)

/-- Helper predicate (not from the source): does the string contain three
consecutive slashes? -/
def hasTriple : List Char → Bool
  | [] => false
  | [_] => false
  | [_, _] => false
  | a :: b :: c :: cs => (a == '/' && b == '/' && c == '/') || hasTriple (b :: c :: cs)

/-! ## Middleware pattern matching (`#middlewaresOf` filter, rest.js)

The source turns a middleware path into a regex: regex specials are escaped,
`*` becomes `.+` (one or more arbitrary characters, slashes included) and
`:name` (a colon followed by one or more word characters) becomes `([^/]+)`
(one or more non-slash characters).  The request path is then tested against
`^pattern$` (exact) and `^pattern(/.*)?$` (prefix).  We embed the pattern as a
token list and implement the backtracking regex match directly. -/

inductive Tok where
  | lit (c : Char)
  | star
  | param
  deriving DecidableEq

/-- JS `\w` (ASCII word character). -/
def isWordChar (c : Char) : Bool :=
  ('a' ≤ c && c ≤ 'z') || ('A' ≤ c && c ≤ 'Z') || ('0' ≤ c && c ≤ '9') || c == '_'

/-- Is the first character a word character? (lookahead for `:param`). -/
def headIsWord : List Char → Bool
  | [] => false
  | d :: _ => isWordChar d

/-- Tokenizer for middleware patterns.  The Bool state is `true` while the
scanner is inside the word-character run of a `:param` (those characters were
consumed by the `([\w]+)` group and produce no further tokens). -/
def tokAux : Bool → List Char → List Tok
  | _, [] => []
  | inW, c :: cs =>
    if inW && isWordChar c then tokAux true cs
    else if c == '*' then .star :: tokAux false cs
    else if c == ':' && headIsWord cs then .param :: tokAux true cs
    else .lit c :: tokAux false cs

def tokenize (l : List Char) : List Tok := tokAux false l

/-- Backtracking matcher for the compiled pattern.  With `pfx = false` this is
the exact regex `^pattern$`; with `pfx = true` it is `^pattern(/.*)?$`, i.e.
after the tokens are consumed the rest of the path must be empty or start with
a slash.  `.star` is `.+` (≥ 1 arbitrary characters), `.param` is `([^/]+)`
(≥ 1 non-slash characters). -/
def tokMatch (pfx : Bool) : List Tok → List Char → Bool
  | [], [] => true
  | [], c :: _ => pfx && c == '/'
  | .lit _ :: _, [] => false
  | .lit a :: ts, d :: ds => a == d && tokMatch pfx ts ds
  | .star :: _, [] => false
  | .star :: ts, _ :: ds => tokMatch pfx ts ds || tokMatch pfx (.star :: ts) ds
  | .param :: _, [] => false
  | .param :: ts, d :: ds => d != '/' && (tokMatch pfx ts ds || tokMatch pfx (.param :: ts) ds)

/-- The `#middlewaresOf` filter predicate (rest.js): the literal pattern `"*"`
matches everything; otherwise the path must match the exact regex or the
prefix regex built from the pattern. -/
def middlewareApplies (mpath p : String) : Bool :=
  if mpath == "*" then true
  else
    let ts := tokenize mpath.data
    tokMatch false ts p.data || tokMatch true ts p.data

/-! ## Specificity comparator (`#middlewaresOf` sort, rest.js) -/

/-- Number of `*` occurrences (`path.match(/\*/g)`). -/
def countStars (s : String) : Nat := s.data.countP (fun c => c == '*')

/-- Number of `:[^/]+` matches (`path.match(/:[^\/]+/g)`): a colon starts a
match when followed by at least one non-slash character, and the match
greedily consumes all following non-slash characters. -/
def countParamsAux : Bool → List Char → Nat
  | _, [] => 0
  | inR, c :: cs =>
    if inR && c != '/' then countParamsAux true cs
    else if c == ':' && (match cs with | [] => false | d :: _ => d != '/') then
      1 + countParamsAux true cs
    else countParamsAux false cs

def countParams (s : String) : Nat := countParamsAux false s.data

/-- `path.split("/").length`: one more than the number of slashes. -/
def segCount (s : String) : Nat :=
  s.data.foldl (fun n c => if c == '/' then n + 1 else n) 1

/-- A flattened middleware entry as produced by the `middlewares` getter
(rest.js): absolute normalized path, ordinal index, handler. -/
structure MwEntry where
  path : String
  order : Nat
  handler : MwHandler

/-- The sort comparator from `#middlewaresOf` (rest.js), returning a JS-style
negative/zero/positive number. -/
def cmpEntry (a b : MwEntry) : Int :=
  if a.path == "*" then 1
  else if b.path == "*" then -1
  else if countStars a.path ≠ countStars b.path then
    (countStars a.path : Int) - (countStars b.path : Int)
  else if countParams a.path ≠ countParams b.path then
    (countParams a.path : Int) - (countParams b.path : Int)
  else if segCount a.path ≠ segCount b.path then
    (segCount b.path : Int) - (segCount a.path : Int)
  else if a.path.length ≠ b.path.length then
    (b.path.length : Int) - (a.path.length : Int)
  else (a.order : Int) - (b.order : Int)

/-- Stable insertion step: the element is placed before the first entry it
compares strictly below, after all entries it ties with. -/
def insMw (x : MwEntry) : List MwEntry → List MwEntry
  | [] => [x]
  | y :: ys => if cmpEntry x y < 0 then x :: y :: ys else y :: insMw x ys

/-- JS `Array.prototype.sort` is a stable sort (ES2019); for this comparator
(a strict weak order) its result coincides with a stable insertion sort, which
is how we model it. -/
def sortMws (l : List MwEntry) : List MwEntry :=
  l.foldl (fun acc x => insMw x acc) []

/-! ## The application (`Rest`, rest.js) -/

/-- The opaque external service object.  JS objects are always truthy, which
is what the `!this.#service` / `|| null` checks in the source test. -/
def Service := Nat

/-- A registered route (`Route`, route.js): method, raw path, handler. -/
structure RouteR where
  method : String
  path : String
  handler : Handler

/-- A registered middleware (`Middleware`, middleware.js). -/
structure MwR where
  path : String
  handler : MwHandler

/-! An application (`Rest`) and its list of mounts.  `MountList` is a
specialized list of `(path, app)` pairs so that the mutual recursion over the
mount tree stays structural. -/

mutual
inductive Rest where
  | mk (routes : List RouteR) (mws : List MwR) (mounts : MountList)
       (service : Option Service)
inductive MountList where
  | nil
  | cons (path : String) (app : Rest) (rest : MountList)
end

def Rest.routesOf : Rest → List RouteR
  | .mk rs _ _ _ => rs

def Rest.mwsOf : Rest → List MwR
  | .mk _ ms _ _ => ms

def Rest.svcOf : Rest → Option Service
  | .mk _ _ _ s => s

/-- `#addRoute` (rest.js): fails iff some existing route has the same method
and the *raw* (unnormalized) path string; otherwise appends. -/
def Rest.addRoute (r : Rest) (rt : RouteR) : Except String Rest :=
  match r with
  | .mk routes mws mounts svc =>
    if routes.any (fun r0 => r0.method == rt.method && r0.path == rt.path) then
      .error ("Route already exists: " ++ rt.method ++ " " ++ rt.path)
    else .ok (.mk (routes ++ [rt]) mws mounts svc)

/-- The `Route` constructor checks (route.js): method must be in the
enumerated set, path must be a non-empty string, handler must be a function
(always true in the embedding). -/
def mkRouteChecked (method path : String) (h : Handler) : Except String RouteR :=
  if !(["GET", "POST", "PUT", "DELETE", "PATCH", "OPTIONS"].contains method) then
    .error ("Invalid HTTP method: " ++ method)
  else if path == "" then .error ("Invalid path: " ++ path)
  else .ok ⟨method, path, h⟩

/-- `Rest.get(path, handler)` (rest.js); the other verb helpers differ only in
the method string. -/
def Rest.getR (r : Rest) (path : String) (h : Handler) : Except String Rest :=
  match mkRouteChecked "GET" path h with
  | .error e => .error e
  | .ok rt => r.addRoute rt

/-- `Rest.use(path, handler)` (rest.js) for a single path: appends one
middleware (no validation beyond the path being a string). -/
def Rest.useM (r : Rest) (path : String) (h : MwHandler) : Rest :=
  match r with
  | .mk routes mws mounts svc => .mk routes (mws ++ [⟨path, h⟩]) mounts svc

def MountList.concatM : MountList → String → Rest → MountList
  | .nil, p, a => .cons p a .nil
  | .cons q b rest, p, a => .cons q b (rest.concatM p a)

/-- `Rest.mount(path, app)` (rest.js): appends a mount. -/
def Rest.mountA (r : Rest) (path : String) (app : Rest) : Rest :=
  match r with
  | .mk routes mws mounts svc => .mk routes mws (mounts.concatM path app) svc

/-- The `service` getter (rest.js): throws `"Service not set"` when the
private field is still null. -/
def Rest.serviceGet (r : Rest) : Except String Service :=
  match r.svcOf with
  | none => .error "Service not set"
  | some s => .ok s

/-- The `service` setter (rest.js): throws `"Service already set"` when the
field is already populated. -/
def Rest.serviceSet (r : Rest) (s : Service) : Except String Rest :=
  match r with
  | .mk routes mws mounts svc =>
    match svc with
    | some _ => .error "Service already set"
    | none => .ok (.mk routes mws mounts (some s))

/-- `Context.service` (context.js): `this.#rest?.service || null`.  The
optional chaining only guards a null `#rest`; when `#rest` is present the
`Rest.service` getter runs and its throw propagates before the `|| null`
fallback can apply.  A successfully returned service object is truthy, so
`|| null` keeps it. -/
def ctxService (restField : Option Rest) : Except String (Option Service) :=
  match restField with
  | none => .ok none
  | some r =>
    match r.serviceGet with
    | .error e => .error e
    | .ok s => .ok (some s)

/-! ## Flattening (`getRoutes` and the `middlewares` getter, rest.js) -/

/-- A flattened route: normalized absolute path, method, handler. -/
structure FlatRoute where
  path : String
  method : String
  handler : Handler

/-- Mount prefixes: a mount at `"/"` contributes no prefix. -/
def mountPfx (p : String) : String := if p == "/" then "" else p

/-! `getRoutes` (rest.js): own routes first (normalized with the empty
`basepath`), then each mount's recursively flattened routes re-prefixed and
re-normalized, in mount-call order. -/

mutual
def getRoutesAux : Rest → List FlatRoute
  | .mk routes _ mounts _ =>
    routes.map (fun rt => ⟨routeNorm rt.path, rt.method, rt.handler⟩) ++
      mountRoutes mounts
def mountRoutes : MountList → List FlatRoute
  | .nil => []
  | .cons p app rest =>
    (getRoutesAux app).map
      (fun fr => ⟨routeNorm (mountPfx p ++ fr.path), fr.method, fr.handler⟩) ++
      mountRoutes rest
end

/-- Own middlewares of the `middlewares` getter (rest.js): `#middlewares`
mapped with their array index as ordinal, paths normalized (the own
`basepath` is undefined, i.e. empty). -/
def mwsOwn : List MwR → Nat → List MwEntry
  | [], _ => []
  | m :: ms, i => ⟨normalizePath m.path, i, m.handler⟩ :: mwsOwn ms (i + 1)

/-- Re-indexing applied to one mounted child's flattened middleware entry:
prefix the path, re-normalize, and shift the ordinal past the parent's own
`n` middlewares. -/
def reindexMw (n : Nat) (p : String) (m : MwEntry) : MwEntry :=
  ⟨normalizePath (mountPfx p ++ m.path), n + m.order, m.handler⟩

/-! The `middlewares` getter (rest.js): the application's own middlewares
(ordinals `0..n-1`), followed by every mount's recursively flattened
middlewares re-prefixed and re-indexed by `n`, in mount-call order. -/

mutual
def middlewaresView : Rest → List MwEntry
  | .mk _ mws mounts _ =>
    mwsOwn mws 0 ++ mountMws (mwsOwn mws 0).length mounts
def mountMws (n : Nat) : MountList → List MwEntry
  | .nil => []
  | .cons p app rest =>
    (middlewaresView app).map (reindexMw n p) ++ mountMws n rest
end

/-- `#middlewaresOf(path)` (rest.js): filter the flattened view by the match
predicate, then sort most-specific-first by the comparator. -/
def middlewaresOf (r : Rest) (p : String) : List MwEntry :=
  sortMws ((middlewaresView r).filter (fun e => middlewareApplies e.path p))

/-! ## Chain building and dispatch (the `routes` getter, rest.js) -/

/-- One wrapping step of the chain-building loop:
`next = async (context) => handler(context, currentNext)`. -/
def wrapMw (h : MwHandler) (next : Handler) : Handler :=
  fun c => h c next

/-- The chain-building loop.  The source reverses the sorted middleware
handler list and then walks it from its last index down to `0`, wrapping at
each step; that downward walk over the reversed list is exactly a right fold
with `wrapMw` over the reversed list, which is what the callers below pass. -/
def buildChain (handlers : List MwHandler) (terminal : Handler) : Handler :=
  handlers.foldr wrapMw terminal

/-- The composed chain for one flattened route. -/
def routeChain (r : Rest) (fr : FlatRoute) : Handler :=
  buildChain (((middlewaresOf r fr.path).map (fun e => e.handler)).reverse) fr.handler

/-- Fresh context created by the dispatch function (`new Context(request, this)`). -/
def initCtx : Ctx := ⟨[], none⟩

/-- The synthesized 500 of the dispatch catch block (rest.js):
`Response(JSON.stringify({error: "Internal Server Error", message}), 500)`
with a JSON content type.  Note the *flat* shape: `error` maps to the fixed
string and `message` is a top-level sibling. -/
def mkSynth500 (msg : String) : Resp :=
  ⟨500, [("Content-Type", "application/json")],
    .jsonB (.obj [("error", .str "Internal Server Error"), ("message", .str msg)])⟩

/-- The `try` block of the dispatch function (rest.js): run the chain; on
normal completion return the recorded response or throw
`"No response set in context"`; a throw from the chain propagates. -/
def tryBody (chain : Handler) (c0 : Ctx) : Ctx × Except String Resp :=
  match chain c0 with
  | (c, some e) => (c, .error e)
  | (c, none) =>
    match c.response with
    | some resp => (c, .ok resp)
    | none => (c, .error "No response set in context")

/-- The whole dispatch function (rest.js): `try` block plus the `catch` that
prefers a response already recorded in the context and otherwise synthesizes
the flat 500. -/
def runDispatch (chain : Handler) : Resp :=
  match tryBody chain initCtx with
  | (_, .ok resp) => resp
  | (c, .error e) =>
    match c.response with
    | some resp => resp
    | none => mkSynth500 e

/-- The per-route dispatch closure stored in the table. -/
def mkDispatch (r : Rest) (fr : FlatRoute) : Unit → Resp :=
  fun _ => runDispatch (routeChain r fr)

/-- The table-building fold of the `routes` getter (rest.js):
`routes[path][method] = dispatchFn` over the flattened route list, later
assignments overwriting earlier ones. -/
def tableFold (mk : FlatRoute → Unit → Resp) (frs : List FlatRoute) :
    String → String → Option (Unit → Resp) :=
  frs.foldl
    (fun acc fr => fun p m =>
      if p == fr.path && m == fr.method then some (mk fr) else acc p m)
    (fun _ _ => none)

/-- The `routes` getter (rest.js) viewed as a lookup table. -/
def Rest.routesTable (r : Rest) : String → String → Option (Unit → Resp) :=
  tableFold (mkDispatch r) (getRoutesAux r)

/-- Invoke the dispatch table at a path/method key. -/
def dispatchAt (r : Rest) (p m : String) : Option Resp :=
  (r.routesTable p m).map (fun d => d ())

/-- The `fetch` getter (rest.js): the returned request handler ignores the
request entirely and always answers a plain-text 404 `"Not found"`. -/
def Rest.fetchFn (_r : Rest) : Unit → Resp :=
  fun _ => ⟨404, [], .textB "Not found"⟩

/-- Pure data-level companion of `tableFold`: the last flattened route that
matches the key (used to state the last-one-wins property). -/
def lastMatching (frs : List FlatRoute) (p m : String) : Option FlatRoute :=
  frs.foldl
    (fun acc fr => if p == fr.path && m == fr.method then some fr else acc)
    none

/-! ## Request body parsing (`Request`, request.js)

`Request.json/text/formData` wrap the underlying body readers in
`try/catch` and return `null` on failure; we therefore model the raw request
by the already-caught outcomes (`none` = the underlying reader rejected).
`Request.parse` itself has *no* try/catch. -/

/-- The raw request as `Request.parse` observes it. -/
structure RawRequest where
  contentType : Option String
  jsonBody : Option JsonVal
  textBody : Option String
  formBody : Option (List (String × String))

/-- Substring test (`String.prototype.includes`). -/
def subOccurs (needle : List Char) : List Char → Bool
  | [] => needle.isEmpty
  | c :: t => needle.isPrefixOf (c :: t) || subOccurs needle t

def strIncludes (hay sub : String) : Bool := subOccurs sub.data hay.data

/-- ASCII lowercasing (`String.prototype.toLowerCase` on header values). -/
def lowerStr (s : String) : String :=
  String.mk (s.data.map (fun c =>
    if 'A' ≤ c && c ≤ 'Z' then Char.ofNat (c.toNat + 32) else c))

/-- JS truthiness for the modelled JSON values (`if (!current[section])`). -/
def jsFalsy : JsonVal → Bool
  | .str s => s == ""
  | .num n => n == 0
  | .obj _ => false

def lookupField : List (String × JsonVal) → String → Option JsonVal
  | [], _ => none
  | (k', v) :: rest, k => if k' == k then some v else lookupField rest k

def setField : List (String × JsonVal) → String → JsonVal → List (String × JsonVal)
  | [], k, v => [(k, v)]
  | (k', v') :: rest, k, v =>
    if k' == k then (k, v) :: rest else (k', v') :: setField rest k v

/-- The dotted-key nesting loop shared by the urlencoded and multipart
branches of `Request.parse`: walk/create nested objects along the
`.`-separated sections and assign the value at the last section.  A missing
or falsy section value is overwritten with a fresh `{}` before walking in.
Walking into an existing *truthy non-object* makes `current` a primitive,
and the step that follows — creating `{}` for the next section (the read on
the primitive yields undefined; prototype-inherited properties of primitive
wrappers are not modelled) or the final value assignment — assigns a
property on that primitive, which throws a TypeError because request.js is
an ES module and therefore strict-mode code. -/
def insertPath (fs : List (String × JsonVal)) :
    List String → String → Except String (List (String × JsonVal))
  | [], _ => .ok fs
  | [sec], v => .ok (setField fs sec (.str v))
  | sec :: sec2 :: rest, v =>
    match lookupField fs sec with
    | some (.obj sub) =>
      match insertPath sub (sec2 :: rest) v with
      | .error e => .error e
      | .ok sub' => .ok (setField fs sec (.obj sub'))
    | some jv =>
      if jsFalsy jv then
        match insertPath [] (sec2 :: rest) v with
        | .error e => .error e
        | .ok sub' => .ok (setField fs sec (.obj sub'))
      else .error "TypeError: cannot create property on a primitive value"
    | none =>
      match insertPath [] (sec2 :: rest) v with
      | .error e => .error e
      | .ok sub' => .ok (setField fs sec (.obj sub'))

/-- `key.split(".")` (also used below for `&` and for the first `=`): JS
`String.prototype.split` with a single-character separator. -/
def splitChAux (sep : Char) : List Char → List Char → List String
  | [], acc => [String.mk acc.reverse]
  | c :: cs, acc =>
    if c == sep then String.mk acc.reverse :: splitChAux sep cs []
    else splitChAux sep cs (c :: acc)

def splitCh (sep : Char) (s : String) : List String := splitChAux sep s.data []

/-- Fold a list of key/value pairs through the nesting loop; the first
TypeError aborts the whole `parse` call. -/
def nestAll : List (String × JsonVal) → List (String × String) →
    Except String (List (String × JsonVal))
  | fs, [] => .ok fs
  | fs, kv :: rest =>
    match insertPath fs (splitCh '.' kv.1) kv.2 with
    | .error e => .error e
    | .ok fs' => nestAll fs' rest

/-- Split a `key=value` piece at its first `=` (no `=` means empty value,
matching `URLSearchParams`). -/
def eqSplit : List Char → List Char × List Char
  | [] => ([], [])
  | c :: cs =>
    if c == '=' then ([], cs)
    else
      match eqSplit cs with
      | (k, v) => (c :: k, v)

/-- `new URLSearchParams(init)` as used by the urlencoded branch, modelled
for the claim-relevant cases: a null init is converted to the string
`"null"`, which parses to the single entry `("null", "")`; percent/plus
decoding of a real query string is an external platform detail the claims
never exercise, so a plain `&`/first-`=` split (empty pieces skipped) stands
in for it. -/
def urlEntries : Option String → List (String × String)
  | none => [("null", "")]
  | some s =>
    (splitCh '&' s).filterMap (fun piece =>
      if piece == "" then none
      else
        match eqSplit piece.data with
        | (k, v) => some (String.mk k, String.mk v))

/-- `Request.parse` (request.js).  An `Except.error` models an uncaught throw
escaping `parse`; `Except.ok none` models resolving to `null`. -/
def parseFn (r : RawRequest) : Except String (Option JsonVal) :=
  let ct := lowerStr (match r.contentType with | none => "" | some s => s)
  if ct == "" then .ok none
  else if strIncludes ct "application/json" then .ok r.jsonBody
  else if strIncludes ct "application/x-www-form-urlencoded" then
    match nestAll [] (urlEntries r.textBody) with
    | .error e => .error e
    | .ok fs => .ok (some (.obj fs))
  else if strIncludes ct "multipart/form-data" then
    match r.formBody with
    | none => .error "TypeError: null is not an object (evaluating fd.entries)"
    | some entries =>
      match nestAll [] entries with
      | .error e => .error e
      | .ok fs => .ok (some (.obj fs))
  else if strIncludes ct "text/plain" then
    .ok (match r.textBody with | none => none | some t => some (.str t))
  else .ok none

/-! ## Concrete applications used by the claims -/

/-- A route handler that does nothing (completes without recording). -/
def trivH : Handler := fun c => (c, none)

/-- The `GET /` handler of the README quick-start: `c.json({message:"Hello"})`. -/
def helloHandler : Handler := fun c => (c.jsonR (.obj [("message", .str "Hello")]), none)

/-- The quick-start application: one route `GET /`. -/
def helloApp : Rest := .mk [⟨"GET", "/", helloHandler⟩] [] .nil none

/-- The 200/JSON response the hello handler records. -/
def helloResp : Resp :=
  ⟨200, [("Content-Type", "application/json")], .jsonB (.obj [("message", .str "Hello")])⟩

/-- Append an event to the `"log"` entry of the context store (via the
source's `Context.set`/`get`). -/
def pushLog (c : Ctx) (e : String) : Ctx :=
  match c.getV "log" with
  | some (.strList l) => c.setV "log" (.strList (l ++ [e]))
  | _ => c.setV "log" (.strList [e])

/-- Read the event log back out of a context. -/
def logOf (c : Ctx) : List String :=
  match c.getV "log" with
  | some (.strList l) => l
  | _ => []

/-- A middleware that logs `pre:<name>`, awaits `next`, then logs
`post:<name>`; a throw from `next` propagates without running the post
code (it is not wrapped in try/catch). -/
def traceMw (name : String) : MwHandler := fun c next =>
  let c1 := pushLog c ("pre:" ++ name)
  match next c1 with
  | (c2, some e) => (c2, some e)
  | (c2, none) => (pushLog c2 ("post:" ++ name), none)

/-- A terminal route handler that logs `"handler"`. -/
def traceTerm : Handler := fun c => (pushLog c "handler", none)

/-- The chain-order scenario of the spec: middlewares `"*"` (registered
first) and `"/users/*"`, and a route `GET /users/1`. -/
def onionApp : Rest :=
  .mk [⟨"GET", "/users/1", traceTerm⟩]
    [⟨"*", traceMw "*"⟩, ⟨"/users/*", traceMw "/users/*"⟩] .nil none

/-- An application holding `GET /a` (used for the duplicate-registration
claims). -/
def slashApp : Rest := .mk [⟨"GET", "/a", trivH⟩] [] .nil none

def oneHandler : Handler := fun c => (c.jsonR (.obj [("v", .str "one")]), none)

def twoHandler : Handler := fun c => (c.jsonR (.obj [("v", .str "two")]), none)

def childOne : Rest := .mk [⟨"GET", "/x", oneHandler⟩] [] .nil none

def childTwo : Rest := .mk [⟨"GET", "/x", twoHandler⟩] [] .nil none

/-- Two children that both register `GET /x`, mounted at the *same* prefix:
flattening yields two routes with identical (path, method). -/
def samePfxApp : Rest := .mk [] [] (.cons "/p" childOne (.cons "/p" childTwo .nil)) none

/-- Two children that both register `GET /x`, mounted at *different*
prefixes. -/
def twoPfxApp : Rest := .mk [] [] (.cons "/a" childOne (.cons "/b" childTwo .nil)) none

def twoResp : Resp :=
  ⟨200, [("Content-Type", "application/json")], .jsonB (.obj [("v", .str "two")])⟩

/-- A route handler that always throws. -/
def boomChain : Handler := fun c => (c, some "boom")

/-- A middleware that just delegates. -/
def idMw : MwHandler := fun c next => next c

/-- Child application with a single global middleware (mount example). -/
def cApp : Rest := .mk [] [⟨"*", idMw⟩] .nil none

/-- Parent with one own middleware and one mounted child (mount example). -/
def mwParent : Rest := .mk [] [⟨"*", idMw⟩] (.cons "/c" cApp .nil) none

/-! ## Helper predicates and functions used only in statements/proofs -/

/-- Duplicate check of `#addRoute` as a standalone predicate: some existing
route has the same method and the same raw path string. -/
def hasRouteRaw (r : Rest) (m p : String) : Bool :=
  r.routesOf.any (fun r0 => r0.method == m && r0.path == p)

/-- `[i, i+1, ..., i+n-1]`. -/
def natsFrom (i n : Nat) : List Nat :=
  match n with
  | 0 => []
  | n + 1 => i :: natsFrom (i + 1) n

/-- All entries with path `"*"` form a suffix of the list. -/
def starsLast (l : List MwEntry) : Bool :=
  (l.dropWhile (fun e => !(e.path == "*"))).all (fun e => e.path == "*")

/-- The pattern contains no `*` and no `:` (purely literal). -/
def litOnly (s : List Char) : Bool :=
  s.all (fun c => !(c == '*') && !(c == ':'))

/-- Sequentially push a list of log events. -/
def pushLogs (c : Ctx) (es : List String) : Ctx :=
  es.foldl pushLog c

/-- Statement-side description of the dispatch outcome in terms of the thrown
error and the context response left by the chain. -/
def dispatchSpec (th : Option String) (resp : Option Resp) : Resp :=
  match th, resp with
  | _, some r => r
  | none, none => mkSynth500 "No response set in context"
  | some e, none => mkSynth500 e

/-! # Theorems -/

/-! ## C1: dispatch always answers, with the synthesized 500 -/

/-- C1 counterexample: for a route whose handler throws `"boom"` without
recording a response, dispatch returns the synthesized 500, but its JSON body
is the *flat* `{error: "Internal Server Error", message}` object — not the
`{error: {message, status, ...details}}` shape produced by the
`Context.error` builder, contradicting the claimed shape of the synthesized
500. -/
theorem c1_counterexample :
    runDispatch boomChain = mkSynth500 "boom" ∧
    (mkSynth500 "boom").body ≠ RespBody.jsonB (errBody "boom" 500 []) := by
  refine ⟨rfl, ?_⟩
  intro h
  simp [mkSynth500, errBody] at h

/-- C1 (amended): the dispatch function is total — for every composed chain
it returns a response and never itself throws.  If the chain completes and a
response was recorded in the context, that response is returned; if it
completes without one, the synthesized 500 (message `"No response set in
context"`) is returned; if the chain throws, a recorded context response is
preferred and otherwise the synthesized 500 carries the error message.  The
synthesized 500 is a JSON response of the flat shape
`{error: "Internal Server Error", message}` (not the nested
`{error: {message, status, ...}}` builder shape). -/
theorem c1_dispatch_total (chain : Handler) (c : Ctx) (th : Option String)
    (h : chain initCtx = (c, th)) :
    runDispatch chain = dispatchSpec th c.response ∧
    (∀ e, mkSynth500 e =
      ⟨500, [("Content-Type", "application/json")],
        .jsonB (.obj [("error", .str "Internal Server Error"),
                      ("message", .str e)])⟩) := by
  refine ⟨?_, fun e => rfl⟩
  unfold runDispatch tryBody
  rw [h]
  rcases th with _ | e <;> rcases hr : c.response with _ | r <;>
    simp [hr, dispatchSpec]

/-- C1 witness: the amended theorem applied to a chain that completes without
recording a response. -/
theorem c1_dispatch_total_witness :
    runDispatch trivH = mkSynth500 "No response set in context" :=
  (c1_dispatch_total trivH initCtx none rfl).1

/-! ## C3: `fetch` vs the dispatch table -/

/-- C3 counterexample: on the quick-start application (`GET /` returning
`{message: "Hello"}` as JSON), invoking the `fetch` entry point yields the
plain-text 404 `"Not found"`, not the claimed 200 JSON response. -/
theorem c3_counterexample :
    helloApp.fetchFn () = ⟨404, [], .textB "Not found"⟩ ∧
    (helloApp.fetchFn ()).status ≠ 200 := by
  exact ⟨rfl, by decide⟩

/-- C3 (amended): the function returned by the `fetch` getter ignores the
request and always answers the plain-text 404 `"Not found"`, for every
application; registered routes are answered through the separately built
`routes` dispatch table instead, where the `GET /` route is stored under the
normalized key `""` (the root path normalizes to the empty string) and its
dispatch function yields status 200, body `{"message":"Hello"}` and header
`Content-Type: application/json`; the table has no entry under `"/"`. -/
theorem c3_fetch_vs_table :
    (∀ (r : Rest) (u : Unit), r.fetchFn u = ⟨404, [], .textB "Not found"⟩) ∧
    dispatchAt helloApp "" "GET" = some helloResp ∧
    dispatchAt helloApp "/" "GET" = none := by
  exact ⟨fun r u => rfl, rfl, rfl⟩

/-! ## C9: the service accessors -/

/-- C9: on any application whose service field is unset, the `service` getter
throws `"Service not set"`, and the same error propagates through the
`Context.service` accessor (whose `|| null` fallback is unreachable because
the getter throws first). -/
theorem c9_service_throws (rts : List RouteR) (mws : List MwR) (ml : MountList) :
    (Rest.mk rts mws ml none).serviceGet = .error "Service not set" ∧
    ctxService (some (Rest.mk rts mws ml none)) = .error "Service not set" := by
  exact ⟨rfl, rfl⟩

/-! ## C8: `Request.parse` on unreadable bodies -/

/-- C8: `parse` resolves to `null` for an absent or unsupported Content-Type
and for unreadable JSON or text bodies, but when the Content-Type is
`multipart/form-data` and reading the form data fails (`formData()` caught
the error and returned `null`), `parse` iterates `fd.entries()` on `null`
and the TypeError escapes — `parse` throws instead of resolving to `null`.
The dotted-key nesting loop is a second uncaught path: a collision such as
`a=v&a.b=w` (urlencoded) or the same keys in form data walks into the
primitive `"v"` and the strict-mode property assignment throws, while
collision-free dotted keys nest and a falsy collision (`a=&a.b=w`) is
overwritten by the fresh object. -/
theorem c8_parse_multipart_throws :
    parseFn ⟨some "multipart/form-data", none, none, none⟩ =
      .error "TypeError: null is not an object (evaluating fd.entries)" ∧
    parseFn ⟨some "multipart/form-data; boundary=x", none, none, none⟩ =
      .error "TypeError: null is not an object (evaluating fd.entries)" ∧
    parseFn ⟨some "application/json", none, none, none⟩ = .ok none ∧
    parseFn ⟨some "application/json", some (.str "x"), none, none⟩ =
      .ok (some (.str "x")) ∧
    parseFn ⟨some "text/plain", none, none, none⟩ = .ok none ∧
    parseFn ⟨none, none, none, none⟩ = .ok none ∧
    parseFn ⟨some "application/octet-stream", none, none, none⟩ = .ok none ∧
    parseFn ⟨some "application/x-www-form-urlencoded", none, some "a=v&a.b=w", none⟩ =
      .error "TypeError: cannot create property on a primitive value" ∧
    parseFn ⟨some "multipart/form-data", none, none, some [("a", "v"), ("a.b", "w")]⟩ =
      .error "TypeError: cannot create property on a primitive value" ∧
    parseFn ⟨some "multipart/form-data", none, none, some [("a.b", "w")]⟩ =
      .ok (some (.obj [("a", .obj [("b", .str "w")])])) ∧
    parseFn ⟨some "application/x-www-form-urlencoded", none, some "a=&a.b=w", none⟩ =
      .ok (some (.obj [("a", .obj [("b", .str "w")])])) := by
  exact ⟨rfl, rfl, rfl, rfl, rfl, rfl, rfl, rfl, rfl, rfl, rfl⟩

/-! ## C5: duplicate route registration -/

/-- C5 counterexample: after registering `GET /a`, registering the
trailing-slash variant `GET /a/` on the same application does *not* fail —
duplicate detection compares raw path strings, and `"/a/"` differs from
`"/a"`, so the route is appended. -/
theorem c5_counterexample :
    slashApp.addRoute ⟨"GET", "/a/", trivH⟩ =
      .ok (.mk [⟨"GET", "/a", trivH⟩, ⟨"GET", "/a/", trivH⟩] [] .nil none) := by
  rfl

/-- C5 (amended): registering a route whose method and *raw* path string both
match an existing route of the same application always fails with the
duplicate-route error, and succeeds whenever no raw-identical route exists —
so a trailing-slash variant such as `GET /a/` after `GET /a` is accepted at
registration time (the two only collapse to one normalized path later, in the
dispatch table); registering the same (method, path) on two different
applications mounted under different prefixes succeeds and flattens to two
distinct absolute routes. -/
theorem c5_duplicate_detection :
    (∀ (r : Rest) (rt : RouteR), hasRouteRaw r rt.method rt.path = true →
      r.addRoute rt = .error ("Route already exists: " ++ rt.method ++ " " ++ rt.path)) ∧
    (∀ (r : Rest) (rt : RouteR), hasRouteRaw r rt.method rt.path = false →
      (r.addRoute rt).isOk = true) ∧
    (slashApp.addRoute ⟨"GET", "/a/", trivH⟩).isOk = true ∧
    (getRoutesAux twoPfxApp).map (fun fr => (fr.method, fr.path)) =
      [("GET", "/a/x"), ("GET", "/b/x")] := by
  refine ⟨?_, ?_, rfl, rfl⟩
  · intro r rt h
    rcases r with ⟨routes, mws, mounts, svc⟩
    simp only [hasRouteRaw, Rest.routesOf] at h
    simp [Rest.addRoute, h]
  · intro r rt h
    rcases r with ⟨routes, mws, mounts, svc⟩
    simp only [hasRouteRaw, Rest.routesOf] at h
    simp [Rest.addRoute, h, Except.isOk, Except.toBool]

/-- C5 witness: the amended theorem applied to a raw duplicate (`GET /a`
twice) and to a fresh registration on an empty application. -/
theorem c5_duplicate_detection_witness :
    slashApp.addRoute ⟨"GET", "/a", trivH⟩ =
      .error ("Route already exists: " ++ "GET" ++ " " ++ "/a") ∧
    ((Rest.mk [] [] .nil none).addRoute ⟨"GET", "/a", trivH⟩).isOk = true :=
  ⟨c5_duplicate_detection.1 slashApp ⟨"GET", "/a", trivH⟩ rfl,
   c5_duplicate_detection.2.1 (Rest.mk [] [] .nil none) ⟨"GET", "/a", trivH⟩ rfl⟩

/-! ## C10: colliding flattened routes and last-one-wins -/

/-- `tableFold` pointwise tracks the data-level fold `lastMatching`. -/
theorem tableFold_eq_lastMatching (mk : FlatRoute → Unit → Resp) (p m : String) :
    ∀ (frs : List FlatRoute)
      (accF : String → String → Option (Unit → Resp)) (accD : Option FlatRoute),
      accF p m = accD.map mk →
      frs.foldl
        (fun acc fr => fun p' m' =>
          if p' == fr.path && m' == fr.method then some (mk fr) else acc p' m')
        accF p m =
      (frs.foldl
        (fun acc fr => if p == fr.path && m == fr.method then some fr else acc)
        accD).map mk
  | [], accF, accD, hacc => hacc
  | fr :: frs, accF, accD, hacc => by
    apply tableFold_eq_lastMatching mk p m frs
    by_cases hc : (p == fr.path && m == fr.method) = true
    · simp [hc]
    · simp only [Bool.not_eq_true] at hc
      simp [hc, hacc]

/-- The data-level fold picks the last matching element of the list. -/
theorem lastMatching_eq_getLast (p m : String) :
    ∀ frs : List FlatRoute,
      lastMatching frs p m =
        (frs.filter (fun fr => p == fr.path && m == fr.method)).getLast? := by
  intro frs
  induction frs using List.reverseRecOn with
  | nil => rfl
  | append_singleton frs fr ih =>
    unfold lastMatching at *
    rw [List.foldl_append, List.filter_append]
    simp only [List.foldl_cons, List.foldl_nil]
    by_cases hc : (p == fr.path && m == fr.method) = true
    · have h1 : List.filter (fun fr => p == fr.path && m == fr.method) [fr] = [fr] := by
        simp [List.filter, hc]
      rw [h1, List.getLast?_concat, if_pos hc]
    · have hc' : (p == fr.path && m == fr.method) = false := by
        revert hc
        cases (p == fr.path && m == fr.method) <;> simp
      have h1 : List.filter (fun fr => p == fr.path && m == fr.method) [fr] = [] := by
        simp [List.filter, hc']
      rw [h1, List.append_nil, if_neg hc]
      exact ih

/-- C10: building the dispatch table raises no error on colliding flattened
routes — the table lookup at any (path, method) key is exactly the dispatch
closure of the *last* flattened route matching that key; concretely, mounting
two children that both register `GET /x` at the same prefix `/p` flattens to
two `("/p/x", GET)` routes, and the table serves the handler of the child
mounted later. -/
theorem c10_last_one_wins :
    (∀ (mk : FlatRoute → Unit → Resp) (frs : List FlatRoute) (p m : String),
      tableFold mk frs p m =
        ((frs.filter (fun fr => p == fr.path && m == fr.method)).getLast?).map mk) ∧
    (getRoutesAux samePfxApp).map (fun fr => (fr.path, fr.method)) =
      [("/p/x", "GET"), ("/p/x", "GET")] ∧
    dispatchAt samePfxApp "/p/x" "GET" = some twoResp := by
  refine ⟨?_, rfl, rfl⟩
  intro mk frs p m
  rw [← lastMatching_eq_getLast]
  exact tableFold_eq_lastMatching mk p m frs _ none rfl

/-! ## C6: path normalization -/

/-- `collapseSl` preserves the first character. -/
theorem collapseSl_cons (a : Char) (cs : List Char) :
    ∃ ds, collapseSl (a :: cs) = a :: ds := by
  match cs with
  | [] => exact ⟨[], rfl⟩
  | b :: tl =>
    unfold collapseSl
    by_cases hab : (a == '/' && b == '/') = true
    · have ha : a = '/' := by
        revert hab
        cases h1 : a == '/'
        · simp
        · intro _; exact eq_of_beq h1
      rw [if_pos hab]
      exact ⟨collapseSl tl, by rw [ha]⟩
    · rw [if_neg hab]
      exact ⟨collapseSl (b :: tl), rfl⟩

/-- Dropping the head preserves triple-freeness. -/
theorem hasTriple_tail (c : Char) (cs : List Char) (h : hasTriple (c :: cs) = false) :
    hasTriple cs = false := by
  match cs with
  | [] => rfl
  | [_] => rfl
  | a :: b :: tl =>
    unfold hasTriple at h
    exact (Bool.or_eq_false_iff.mp h).2

/-- Dropping the head preserves double-freeness. -/
theorem hasDouble_tail (c : Char) (cs : List Char) (h : hasDouble (c :: cs) = false) :
    hasDouble cs = false := by
  match cs with
  | [] => rfl
  | a :: tl =>
    unfold hasDouble at h
    exact (Bool.or_eq_false_iff.mp h).2

/-- In a double-free list, the first two characters are not both slashes. -/
theorem hasDouble_head (a b : Char) (cs : List Char)
    (h : hasDouble (a :: b :: cs) = false) : (a == '/' && b == '/') = false := by
  unfold hasDouble at h
  exact (Bool.or_eq_false_iff.mp h).1

/-- A triple-free string collapses to a double-free string. -/
theorem hasDouble_collapseSl : ∀ s : List Char, hasTriple s = false →
    hasDouble (collapseSl s) = false
  | [], _ => rfl
  | [_], _ => rfl
  | a :: b :: cs, h => by
    have htl : hasTriple (b :: cs) = false := hasTriple_tail a _ h
    have hcs : hasTriple cs = false := hasTriple_tail b _ htl
    unfold collapseSl
    by_cases hab : (a == '/' && b == '/') = true
    · rw [if_pos hab]
      have hb : b = '/' := by
        have := (Bool.and_eq_true_iff.mp hab).2
        exact eq_of_beq this
      match hcs2 : cs, (hasDouble_collapseSl cs hcs) with
      | [], _ => rfl
      | e :: cs', ih =>
        have he : (e == '/') = false := by
          subst hcs2
          unfold hasTriple at h
          have h1 := (Bool.or_eq_false_iff.mp h).1
          have ha : (a == '/') = true := (Bool.and_eq_true_iff.mp hab).1
          have hb' : (b == '/') = true := (Bool.and_eq_true_iff.mp hab).2
          rw [ha, hb'] at h1
          simpa using h1
        obtain ⟨ds, hds⟩ := collapseSl_cons e cs'
        rw [hds]
        rw [hds] at ih
        unfold hasDouble
        rw [Bool.or_eq_false_iff]
        refine ⟨?_, ih⟩
        simp [he]
    · rw [if_neg hab]
      have ih := hasDouble_collapseSl (b :: cs) htl
      obtain ⟨ds, hds⟩ := collapseSl_cons b cs
      rw [hds]
      rw [hds] at ih
      unfold hasDouble
      rw [Bool.or_eq_false_iff]
      have hab' : (a == '/' && b == '/') = false := by
        revert hab
        cases (a == '/' && b == '/') <;> simp
      exact ⟨hab', ih⟩

/-- Collapsing is the identity on double-free strings. -/
theorem collapseSl_id : ∀ t : List Char, hasDouble t = false → collapseSl t = t
  | [], _ => rfl
  | [_], _ => rfl
  | a :: b :: cs, h => by
    unfold collapseSl
    rw [if_neg ?hneg]
    case hneg =>
      have := hasDouble_head a b cs h
      simp [this]
    rw [collapseSl_id (b :: cs) (hasDouble_tail a _ h)]

/-- Shape of `stripTr` on a nonempty list: empty result or same head. -/
theorem stripTr_cons (b : Char) (cs : List Char) :
    stripTr (b :: cs) = [] ∨ ∃ ds, stripTr (b :: cs) = b :: ds := by
  match cs with
  | [] =>
    unfold stripTr
    by_cases hb : (b == '/') = true
    · exact Or.inl (by rw [if_pos hb])
    · exact Or.inr ⟨[], by rw [if_neg hb]⟩
  | c :: tl => exact Or.inr ⟨stripTr (c :: tl), rfl⟩

/-- `stripTr` of a nonempty list is empty only for the single slash. -/
theorem stripTr_eq_nil (b : Char) (cs : List Char)
    (h : stripTr (b :: cs) = []) : b = '/' ∧ cs = [] := by
  match cs with
  | [] =>
    unfold stripTr at h
    by_cases hb : (b == '/') = true
    · exact ⟨eq_of_beq hb, rfl⟩
    · rw [if_neg hb] at h
      exact absurd h (by simp)
  | c :: tl =>
    unfold stripTr at h
    exact absurd h (by simp)

/-- Stripping the trailing slash preserves double-freeness. -/
theorem hasDouble_stripTr : ∀ t : List Char, hasDouble t = false →
    hasDouble (stripTr t) = false
  | [], _ => rfl
  | [c], _ => by
    unfold stripTr
    by_cases hc : (c == '/') = true
    · rw [if_pos hc]; rfl
    · rw [if_neg hc]; rfl
  | a :: b :: cs, h => by
    show hasDouble (a :: stripTr (b :: cs)) = false
    have ih := hasDouble_stripTr (b :: cs) (hasDouble_tail a _ h)
    rcases stripTr_cons b cs with hnil | ⟨ds, hds⟩
    · rw [hnil]; rfl
    · rw [hds]
      rw [hds] at ih
      unfold hasDouble
      rw [Bool.or_eq_false_iff]
      exact ⟨hasDouble_head a b cs h, ih⟩

/-- On double-free strings, stripping the trailing slash is idempotent. -/
theorem stripTr_idem : ∀ t : List Char, hasDouble t = false →
    stripTr (stripTr t) = stripTr t
  | [], _ => rfl
  | [c], _ => by
    by_cases hc : (c == '/') = true
    · have hin : stripTr [c] = [] := by unfold stripTr; rw [if_pos hc]
      rw [hin]
      rfl
    · have hin : stripTr [c] = [c] := by unfold stripTr; rw [if_neg hc]
      rw [hin]
      exact hin
  | a :: b :: cs, h => by
    show stripTr (a :: stripTr (b :: cs)) = a :: stripTr (b :: cs)
    have ih := stripTr_idem (b :: cs) (hasDouble_tail a _ h)
    rcases stripTr_cons b cs with hnil | ⟨ds, hds⟩
    · rw [hnil]
      obtain ⟨hb, hcs⟩ := stripTr_eq_nil b cs hnil
      have ha : (a == '/') = false := by
        have hh := hasDouble_head a b cs h
        rw [hb] at hh
        simpa using hh
      show stripTr [a] = [a]
      unfold stripTr
      rw [if_neg (by simp [ha])]
    · rw [hds]
      show a :: stripTr (b :: ds) = a :: (b :: ds)
      rw [← hds, ih]

/-- C6 counterexample: normalization is not idempotent — the slash-pair
replace is a single left-to-right pass, so `"/a////b"` normalizes to
`"/a//b"`, which normalizes further to `"/a/b"`. -/
theorem c6_counterexample :
    normalizePath "/a////b" = "/a//b" ∧
    normalizePath (normalizePath "/a////b") = "/a/b" ∧
    normalizePath (normalizePath "/a////b") ≠ normalizePath "/a////b" := by
  refine ⟨rfl, rfl, by decide⟩

/-- C6 (amended): `normalize(normalize(p)) = normalize(p)` holds for every
path `p` with no three consecutive slashes (one collapse pass then removes
every slash pair), but not in general; the root `"/"` is preserved by the
middleware normalizer `normalizePath` (its `|| "/"` fallback), while the
route normalizer used by `getRoutes` has no fallback and sends `"/"` to the
empty string. -/
theorem c6_normalize_idem :
    (∀ s : String, hasTriple s.data = false →
      normalizePath (normalizePath s) = normalizePath s) ∧
    normalizePath "/" = "/" ∧
    routeNorm "/" = "" := by
  refine ⟨?_, rfl, rfl⟩
  intro s hs
  have h1 : hasDouble (collapseSl s.data) = false := hasDouble_collapseSl _ hs
  have h2 : hasDouble (stripTr (collapseSl s.data)) = false := hasDouble_stripTr _ h1
  unfold normalizePath normChars
  cases ht : stripTr (collapseSl s.data) with
  | nil => rfl
  | cons c l =>
    show normalizePath (String.mk (c :: l)) = String.mk (c :: l)
    rw [ht] at h2
    have hcoll : collapseSl (c :: l) = c :: l := collapseSl_id _ h2
    have hstr : stripTr (c :: l) = c :: l := by
      have := stripTr_idem (collapseSl s.data) h1
      rw [ht] at this
      exact this
    unfold normalizePath normChars
    show (match stripTr (collapseSl (c :: l)) with
          | [] => "/"
          | l' => String.mk l') = String.mk (c :: l)
    rw [hcoll, hstr]

/-- C6 witness: the amended idempotence applied to a triple-free path. -/
theorem c6_normalize_idem_witness :
    normalizePath (normalizePath "/a//b/") = normalizePath "/a//b/" :=
  c6_normalize_idem.1 "/a//b/" (by decide)

/-! ## C4: middleware pattern matching -/

/-- On literal-only patterns the tokenizer emits one literal token per
character. -/
theorem tokenize_litOnly : ∀ s : List Char, litOnly s = true →
    tokAux false s = s.map Tok.lit
  | [], _ => rfl
  | c :: cs, h => by
    have hc : (!(c == '*') && !(c == ':')) = true ∧ litOnly cs = true := by
      unfold litOnly at h
      rw [List.all_cons] at h
      exact ⟨(Bool.and_eq_true_iff.mp h).1, (Bool.and_eq_true_iff.mp h).2⟩
    have hstar : (c == '*') = false := by
      have := (Bool.and_eq_true_iff.mp hc.1).1
      simpa using this
    have hcolon : (c == ':') = false := by
      have := (Bool.and_eq_true_iff.mp hc.1).2
      simpa using this
    unfold tokAux
    rw [if_neg (by simp), if_neg (by simp [hstar]), if_neg (by simp [hcolon])]
    rw [tokenize_litOnly cs hc.2]
    rfl

/-- Exact matching of a literal token list is string equality. -/
theorem tokMatch_lit_exact : ∀ (s p : List Char),
    tokMatch false (s.map Tok.lit) p = true ↔ s = p
  | [], [] => by simp [tokMatch]
  | [], c :: t => by simp [tokMatch]
  | a :: s', [] => by simp [tokMatch]
  | a :: s', d :: p' => by
    show (a == d && tokMatch false (s'.map Tok.lit) p') = true ↔ _
    rw [Bool.and_eq_true_iff, tokMatch_lit_exact s' p']
    constructor
    · rintro ⟨h1, h2⟩
      rw [eq_of_beq h1, h2]
    · intro h
      injection h with h1 h2
      exact ⟨by rw [h1]; exact beq_self_eq_true d, h2⟩

/-- Prefix matching of a literal token list: the path equals the pattern or
extends it past a slash. -/
theorem tokMatch_lit_pfx : ∀ (s p : List Char),
    tokMatch true (s.map Tok.lit) p = true ↔
      p = s ∨ ∃ r, p = s ++ '/' :: r
  | [], [] => by simp [tokMatch]
  | [], c :: t => by
    show (true && c == '/') = true ↔ _
    simp only [Bool.true_and, beq_iff_eq]
    constructor
    · intro h
      exact Or.inr ⟨t, by rw [h]; rfl⟩
    · rintro (h | ⟨r, hr⟩)
      · exact absurd h (by simp)
      · simp only [List.nil_append, List.cons.injEq] at hr
        exact hr.1
  | a :: s', [] => by
    simp only [List.map_cons]
    show (false = true) ↔ _
    simp
  | a :: s', d :: p' => by
    show (a == d && tokMatch true (s'.map Tok.lit) p') = true ↔ _
    rw [Bool.and_eq_true_iff, tokMatch_lit_pfx s' p']
    constructor
    · rintro ⟨h1, h2 | ⟨r, hr⟩⟩
      · exact Or.inl (by rw [eq_of_beq h1, h2])
      · exact Or.inr ⟨r, by rw [eq_of_beq h1, hr]; rfl⟩
    · rintro (h | ⟨r, hr⟩)
      · injection h with h1 h2
        exact ⟨by rw [h1]; exact beq_self_eq_true a, Or.inl h2⟩
      · injection hr with h1 h2
        exact ⟨by rw [h1]; exact beq_self_eq_true a, Or.inr ⟨r, h2⟩⟩

/-- A literal-only pattern is never the string `"*"`. -/
theorem litOnly_ne_star (P : String) (h : litOnly P.data = true) :
    (P == "*") = false := by
  cases hP : P == "*"
  · rfl
  · have : P = "*" := eq_of_beq hP
    subst this
    exact absurd h (by decide)

/-- C4 counterexample: the middleware pattern `/api/*` does *not* apply to
the request path `/api` — the `*` compiles to the regex `.+`, which requires
at least one character after `/api/`, so the "zero segments" case of the
claim fails (while `/api/x` does match). -/
theorem c4_counterexample :
    middlewareApplies "/api/*" "/api" = false ∧
    middlewareApplies "/api/*" "/api/x" = true := by
  exact ⟨rfl, rfl⟩

/-- C4 (amended): the pattern `"*"` alone applies to every path; a `*`
inside a pattern matches *one or more* characters of the remainder (slashes
included) — never zero, so a pattern ending in `*` rejects the path that
stops right before it; and for literal patterns (no `*`, no `:`) matching is
exactly prefix-or-exact: the middleware applies iff the path equals the
pattern or extends it past a `/`. -/
theorem c4_match_semantics :
    (∀ p : String, middlewareApplies "*" p = true) ∧
    (∀ P p : String, litOnly P.data = true →
      (middlewareApplies P p = true ↔ p = P ∨ ∃ r, p.data = P.data ++ '/' :: r)) ∧
    (∀ (pfx : Bool) (ts : List Tok), tokMatch pfx (Tok.star :: ts) [] = false) ∧
    middlewareApplies "/api/*" "/api" = false ∧
    middlewareApplies "/api/*" "/api/x" = true := by
  refine ⟨fun p => rfl, ?_, fun pfx ts => rfl, rfl, rfl⟩
  intro P p h
  unfold middlewareApplies
  rw [if_neg (by simp [litOnly_ne_star P h])]
  show (tokMatch false (tokenize P.data) p.data ||
        tokMatch true (tokenize P.data) p.data) = true ↔ _
  unfold tokenize
  rw [tokenize_litOnly P.data h]
  rw [Bool.or_eq_true_iff, tokMatch_lit_exact, tokMatch_lit_pfx]
  constructor
  · rintro (he | hp | ⟨r, hr⟩)
    · exact Or.inl (by cases P; cases p; simp_all)
    · exact Or.inl (by cases P; cases p; simp_all)
    · exact Or.inr ⟨r, hr⟩
  · rintro (he | ⟨r, hr⟩)
    · subst he
      exact Or.inl rfl
    · exact Or.inr (Or.inr ⟨r, hr⟩)

/-- C4 witness: the amended characterization applied to the literal pattern
`/static` and the path `/static/js`. -/
theorem c4_match_semantics_witness :
    middlewareApplies "/static" "/static/js" = true :=
  (c4_match_semantics.2.1 "/static" "/static/js" (by decide)).mpr
    (Or.inr ⟨['j', 's'], by decide⟩)

/-! ## C2: onion ordering of the middleware chain -/

/-- Setting a key makes it readable. -/
theorem getState_setState : ∀ (st : List (String × StateVal)) (k : String) (v : StateVal),
    getState (setState st k v) k = some v
  | [], k, v => by simp [setState, getState]
  | (k', v') :: rest, k, v => by
    unfold setState
    by_cases hk : (k' == k) = true
    · rw [if_pos hk]
      simp [getState]
    · rw [if_neg hk]
      unfold getState
      rw [if_neg hk]
      exact getState_setState rest k v

/-- Pushing one event appends it to the log. -/
theorem logOf_pushLog (c : Ctx) (e : String) : logOf (pushLog c e) = logOf c ++ [e] := by
  unfold pushLog logOf Ctx.getV Ctx.setV
  cases hv : getState c.state "log" with
  | none => simp [getState_setState]
  | some v =>
    cases v with
    | str s => simp [getState_setState]
    | strList l => simp [getState_setState]

/-- Pushing a list of events appends them to the log. -/
theorem logOf_pushLogs : ∀ (es : List String) (c : Ctx),
    logOf (pushLogs c es) = logOf c ++ es
  | [], c => by simp [pushLogs]
  | e :: es, c => by
    show logOf (pushLogs (pushLog c e) es) = _
    rw [logOf_pushLogs es (pushLog c e), logOf_pushLog]
    simp

/-- Trace of the composed chain: the handler list is executed
outermost-first, so for trace middlewares the log records the pre events in
list order, then the terminal handler, then the post events in reverse list
order, and no error escapes. -/
theorem chainTrace : ∀ (names : List String) (c : Ctx),
    buildChain (names.map traceMw) traceTerm c =
      (pushLogs c ((names.map (fun n => "pre:" ++ n)) ++ "handler" ::
        (names.reverse.map (fun n => "post:" ++ n))), none)
  | [], c => rfl
  | n :: ns, c => by
    have ih := chainTrace ns (pushLog c ("pre:" ++ n))
    show traceMw n c (buildChain (ns.map traceMw) traceTerm) = _
    show (match buildChain (ns.map traceMw) traceTerm (pushLog c ("pre:" ++ n)) with
          | (c2, some e) => (c2, some e)
          | (c2, none) => (pushLog c2 ("post:" ++ n), none)) = _
    rw [ih]
    show (pushLog (pushLogs (pushLog c ("pre:" ++ n))
          (ns.map (fun m => "pre:" ++ m) ++ "handler" ::
            ns.reverse.map (fun m => "post:" ++ m))) ("post:" ++ n), none) = _
    simp only [List.map_cons, List.reverse_cons, List.map_append, List.map_cons,
      List.map_nil, List.cons_append, List.nil_append]
    congr 1
    simp [pushLogs, List.foldl_append]

/-- Entries comparing against a `"*"` entry: the comparator sends `"*"` after
everything else. -/
theorem cmpEntry_star_right (a b : MwEntry) (ha : (a.path == "*") = false)
    (hb : (b.path == "*") = true) : cmpEntry a b < 0 := by
  unfold cmpEntry
  rw [if_neg (by simp [ha]), if_pos hb]
  decide

/-- A `"*"` entry never compares strictly below anything. -/
theorem cmpEntry_star_left (x y : MwEntry) (hx : (x.path == "*") = true) :
    ¬ cmpEntry x y < 0 := by
  unfold cmpEntry
  rw [if_pos hx]
  decide

/-- Inserting a `"*"` entry appends it at the end. -/
theorem insMw_star (x : MwEntry) (hx : (x.path == "*") = true) :
    ∀ l : List MwEntry, insMw x l = l ++ [x]
  | [] => rfl
  | y :: ys => by
    unfold insMw
    rw [if_neg (cmpEntry_star_left x y hx), insMw_star x hx ys]
    rfl

/-- `starsLast` ignores a non-star head. -/
theorem starsLast_cons_nonstar (y : MwEntry) (l : List MwEntry)
    (hy : (y.path == "*") = false) : starsLast (y :: l) = starsLast l := by
  unfold starsLast
  rw [List.dropWhile_cons]
  rw [if_pos (by simp [hy])]

/-- With a star head, `starsLast` says everything is a star. -/
theorem starsLast_cons_star (y : MwEntry) (l : List MwEntry)
    (hy : (y.path == "*") = true) :
    starsLast (y :: l) = l.all (fun e => e.path == "*") := by
  unfold starsLast
  rw [List.dropWhile_cons]
  rw [if_neg (by simp [hy])]
  simp [List.all_cons, hy]

/-- Appending a star entry preserves `starsLast`. -/
theorem starsLast_append_star (x : MwEntry) (hx : (x.path == "*") = true) :
    ∀ l : List MwEntry, starsLast l = true → starsLast (l ++ [x]) = true
  | [], _ => by simp [starsLast, List.dropWhile, hx]
  | y :: ys, h => by
    cases hy : y.path == "*"
    · rw [List.cons_append, starsLast_cons_nonstar y _ hy]
      rw [starsLast_cons_nonstar y ys hy] at h
      exact starsLast_append_star x hx ys h
    · rw [List.cons_append, starsLast_cons_star y _ hy]
      rw [starsLast_cons_star y ys hy] at h
      simp only [List.all_append, List.all_cons, List.all_nil, h]
      simp [hx]

/-- Inserting a non-star entry preserves `starsLast`. -/
theorem insMw_nonstar (x : MwEntry) (hx : (x.path == "*") = false) :
    ∀ l : List MwEntry, starsLast l = true → starsLast (insMw x l) = true
  | [], _ => by simp [insMw, starsLast, List.dropWhile, hx]
  | y :: ys, h => by
    unfold insMw
    by_cases hlt : cmpEntry x y < 0
    · rw [if_pos hlt]
      rw [starsLast_cons_nonstar x _ hx]
      exact h
    · rw [if_neg hlt]
      cases hy : y.path == "*"
      · rw [starsLast_cons_nonstar y _ hy]
        rw [starsLast_cons_nonstar y ys hy] at h
        exact insMw_nonstar x hx ys h
      · exact absurd (cmpEntry_star_right x y hx hy) hlt

/-- The sort invariant: folding insertions into a star-suffixed accumulator
keeps the stars at the end. -/
theorem sortMws_aux : ∀ (l acc : List MwEntry), starsLast acc = true →
    starsLast (l.foldl (fun a x => insMw x a) acc) = true
  | [], _, h => h
  | x :: xs, acc, h => by
    show starsLast (xs.foldl (fun a x => insMw x a) (insMw x acc)) = true
    apply sortMws_aux xs
    cases hx : x.path == "*"
    · exact insMw_nonstar x hx acc h
    · rw [insMw_star x hx acc]
      exact starsLast_append_star x hx acc h

/-- C2: onion ordering.  (1) For any middleware list sorted
most-specific-first, the chain built by the dispatcher (reverse, then wrap
from the last index down) executes the *last* (least specific) entry
outermost: its pre-`next` code runs first and its post-`next` code runs
last, the first (most specific) entry runs innermost, directly around the
route handler.  (2) The specificity comparator orders every non-`"*"` entry
strictly before `"*"`, and the sorted output of `#middlewaresOf` always has
the `"*"` entries as a suffix, so `"*"` middleware is outermost.  (3) On the
spec's scenario — middlewares `"*"` and `"/users/*"`, route `GET /users/1` —
the sorted list is `["/users/*", "*"]` and the executed trace is
`pre:* , pre:/users/* , handler , post:/users/* , post:*`. -/
theorem c2_onion_order :
    (∀ (names : List String),
      logOf ((buildChain ((names.map traceMw).reverse) traceTerm) initCtx).1 =
        (names.reverse.map (fun n => "pre:" ++ n)) ++ "handler" ::
          (names.map (fun n => "post:" ++ n))) ∧
    (∀ a b : MwEntry, (a.path == "*") = false → (b.path == "*") = true →
      cmpEntry a b < 0) ∧
    (∀ l : List MwEntry, starsLast (sortMws l) = true) ∧
    ((middlewaresOf onionApp "/users/1").map (fun e => (e.path, e.order)) =
      [("/users/*", 1), ("*", 0)] ∧
     logOf ((routeChain onionApp ⟨"/users/1", "GET", traceTerm⟩) initCtx).1 =
       ["pre:*", "pre:/users/*", "handler", "post:/users/*", "post:*"]) := by
  refine ⟨?_, cmpEntry_star_right, ?_, rfl, rfl⟩
  · intro names
    rw [← List.map_reverse, chainTrace names.reverse initCtx]
    rw [logOf_pushLogs]
    simp [logOf, initCtx, Ctx.getV, getState]
  · intro l
    exact sortMws_aux l [] rfl

/-- C2 witness: the comparator fact applied to the two concrete entries of
the scenario. -/
theorem c2_onion_order_witness :
    cmpEntry ⟨"/users/*", 1, idMw⟩ ⟨"*", 0, idMw⟩ < 0 :=
  c2_onion_order.2.1 ⟨"/users/*", 1, idMw⟩ ⟨"*", 0, idMw⟩ rfl rfl

/-! ## C7: ordinals in the flattened middleware view -/

theorem mwsOwn_length : ∀ (ms : List MwR) (i : Nat), (mwsOwn ms i).length = ms.length
  | [], _ => rfl
  | _ :: ms, i => by
    show (mwsOwn ms (i + 1)).length + 1 = ms.length + 1
    rw [mwsOwn_length ms (i + 1)]

theorem mwsOwn_orders : ∀ (ms : List MwR) (i : Nat),
    (mwsOwn ms i).map (fun e => e.order) = natsFrom i ms.length
  | [], _ => rfl
  | _ :: ms, i => by
    show i :: (mwsOwn ms (i + 1)).map (fun e => e.order) = i :: natsFrom (i + 1) ms.length
    rw [mwsOwn_orders ms (i + 1)]

theorem mountMws_order_ge (n : Nat) : ∀ (ml : MountList) (e : MwEntry),
    e ∈ mountMws n ml → n ≤ e.order
  | .nil, e, h => absurd h (by simp [mountMws])
  | .cons p app rest, e, h => by
    unfold mountMws at h
    rcases List.mem_append.mp h with hl | hr
    · rcases List.mem_map.mp hl with ⟨m, _, hm⟩
      rw [← hm]
      exact Nat.le_add_right n m.order
    · exact mountMws_order_ge n rest e hr

/-- C7: in the flattened middleware view of an application, (a) the first
block is exactly the application's own middlewares with their original
ordinal indices `0, 1, ...`; (b) every entry contributed by a mounted child
has an ordinal at least the number of the parent's own middlewares, hence
sorts after all of them on the ordinal tie-break; (c) the rest of the view
is the concatenation, in mount-call order, of each child's own flattened
view re-prefixed and re-indexed by an order-preserving map, so each child's
internal order and the relative order of sibling children are preserved. -/
theorem c7_flatten_ordinals (rts : List RouteR) (mws : List MwR)
    (mounts : MountList) (svc : Option Service) :
    ((middlewaresView (.mk rts mws mounts svc)).take mws.length = mwsOwn mws 0) ∧
    ((mwsOwn mws 0).map (fun e => e.order) = natsFrom 0 mws.length) ∧
    (∀ e, e ∈ (middlewaresView (.mk rts mws mounts svc)).drop mws.length →
      mws.length ≤ e.order) ∧
    ((middlewaresView (.mk rts mws mounts svc)).drop mws.length =
      mountMws mws.length mounts) ∧
    (∀ (n : Nat) (p : String) (app : Rest) (rest : MountList),
      mountMws n (.cons p app rest) =
        (middlewaresView app).map (reindexMw n p) ++ mountMws n rest) := by
  have hview : middlewaresView (.mk rts mws mounts svc) =
      mwsOwn mws 0 ++ mountMws (mwsOwn mws 0).length mounts := rfl
  have hlen := mwsOwn_length mws 0
  refine ⟨?_, mwsOwn_orders mws 0, ?_, ?_, fun n p app rest => rfl⟩
  · rw [hview, ← hlen, List.take_left]
  · intro e he
    rw [hview, ← hlen, List.drop_left] at he
    rw [← hlen]
    exact mountMws_order_ge _ mounts e he
  · rw [hview, ← hlen, List.drop_left, hlen]

/-- C7 witness: the theorem applied to a parent with one own middleware and
one mounted child whose single middleware receives ordinal `1 + 0 = 1 ≥ 1`. -/
theorem c7_flatten_ordinals_witness :
    1 ≤ (reindexMw 1 "/c" ⟨"*", 0, idMw⟩).order :=
  (c7_flatten_ordinals [] [⟨"*", idMw⟩] (.cons "/c" cApp .nil) none).2.2.1
    (reindexMw 1 "/c" ⟨"*", 0, idMw⟩) (List.Mem.head _)

end RestSpec
